import Mathlib

/-!
Shallow embedding of the Textual chat server (Go) for checking its
natural-language specification.

Sources embedded here:
* cmd/server/main.go                      : registry, connection lifecycle,
                                            read/write pumps, broadcast fan-out
* internal/server/handlers/client.go      : Client (Session) with its bounded
                                            Send channel (capacity 256)
* internal/server/handlers/messages.go    : message router and the global /
                                            direct / group / friend-request
                                            handlers
* internal/server/handlers/friends.go     : HandleFriendResponse,
                                            sendUpdatedFriendList
* internal/server/handlers/auth.go        : HandleAuth, HandleLogout
* internal/server/database/postgres.go    : store operations on the friends,
                                            users, group_members and messages
                                            tables (SQL modelled as list
                                            transformations)
* pkg/protocol/messages.go                : wire message envelope and payloads

Modelling conventions: Go maps become association lists (`List (String × A)`,
keys unique in every reachable state), Go channels become `List Message`
queues with an explicit capacity check for non-blocking `select`/`default`
sends, `time.Now().Unix()` becomes an explicit `now : Nat` argument, and SQL
statements are translated row-by-row into list operations on a `DB` record.
bcrypt password comparison is modelled as string equality of the stored hash
with the presented password (the hashing algorithm itself is outside the
claims checked here).
-/

set_option linter.unusedVariables false

namespace Textual

/-- Friend relationship status, from the CHECK constraint of the friends
table in 001_initial.sql: pending, accepted, rejected or blocked. -/
inductive FriendStatus where
  | pending
  | accepted
  | rejected
  | blocked
deriving DecidableEq

/-- One row of the friends table: primary key is the ordered pair
(user_id1, user_id2), plus the status column. -/
structure FriendRow where
  u1 : String
  u2 : String
  status : FriendStatus
deriving DecidableEq

/-- A row of the users table (models.User restricted to the columns the
embedded operations read). -/
structure User where
  id : String
  username : String
  passwordHash : String
  status : String
deriving DecidableEq

/-- A row of the messages table (models.Message).  The SQL-generated uuid
primary key is modelled by a Nat counter held in `DB.nextMessageID`. -/
structure DBMessage where
  id : Nat
  content : String
  senderID : String
  senderName : String
  recipientID : Option String
  groupID : Option String
  sentAt : Nat
deriving DecidableEq

/-- protocol.UserInfo: the per-friend record inside a friend_list payload. -/
structure UserInfo where
  id : String
  username : String
  status : String
deriving DecidableEq

/-- protocol.MessageType: the wire message type tags. -/
inductive MessageType where
  | auth
  | messageHistory
  | loadMessages
  | authResponse
  | directMessage
  | groupMessage
  | globalMessage
  | statusUpdate
  | notification
  | friendRequest
  | friendResponse
  | friendList
  | groupCreate
  | groupJoin
  | groupLeave
  | groupList
  | ping
  | pong
  | error
deriving DecidableEq

/-- The wire payload, one constructor per payload shape the embedded code
constructs (Go uses interface values / per-type structs). -/
inductive Payload where
  | nilP
  | authP (username password : String)
  | authResponseP (success : Bool) (userID : String)
  | errorP (code : Nat) (message : String)
  | msgP (m : DBMessage)
  | historyP (messages : List DBMessage)
  | friendRequestP (requestID fromUser toUser status : String)
  | friendResponseP (requestID fromUser : String) (accept : Bool)
  | friendListP (friends : List UserInfo)
  | statusUpdateP (userID status : String)
deriving DecidableEq

/-- protocol.Message: the wire envelope {type, payload, timestamp}. -/
structure Message where
  type : MessageType
  payload : Payload
  timestamp : Nat
deriving DecidableEq

/-- protocol.NewMessage. -/
def newMessage (t : MessageType) (p : Payload) (now : Nat) : Message :=
  ⟨t, p, now⟩

/-- protocol.ErrCodeInternalError. -/
def errCodeInternalError : Nat := 1009

/-- protocol.NewErrorMessage. -/
def newErrorMessage (code : Nat) (text : String) (now : Nat) : Message :=
  newMessage .error (.errorP code text) now

/-- Capacity of a Client Send channel: make(chan protocol.Message, 256)
in handlers.NewClient. -/
def sendChannelCapacity : Nat := 256

/-- handlers.Client: one Session.  The Send channel is a bounded queue; the
two flags record close(c.Send) and c.Conn.Close(). -/
structure Client where
  id : String
  username : String
  mailbox : List Message
  sendClosed : Bool
  connClosed : Bool
deriving DecidableEq

/-- handlers.NewClient: fresh Session with an empty mailbox. -/
def newClient (id username : String) : Client :=
  ⟨id, username, [], false, false⟩

/-- Client.Close: close(c.Send) and c.Conn.Close(). -/
def closeClient (c : Client) : Client :=
  { c with sendClosed := true, connClosed := true }

/-- Non-blocking channel send, the select/default idiom used everywhere:
enqueue iff the channel has room, otherwise leave the client unchanged and
report failure. -/
def trySend (c : Client) (m : Message) : Client × Bool :=
  if c.mailbox.length < sendChannelCapacity then
    ({ c with mailbox := c.mailbox ++ [m] }, true)
  else
    (c, false)

/-- The client registry: the Go map[string]*handlers.Client as an
association list from userID to Session. -/
abbrev Registry := List (String × Client)

/-- Go map read clients[uid]. -/
def lookupClient (cs : Registry) (uid : String) : Option Client :=
  (cs.find? (fun e => e.1 = uid)).map (fun e => e.2)

/-- Apply f to the client(s) registered under uid (a Go map holds at most
one, so this is the in-place mutation of that entry). -/
def updateClient (cs : Registry) (uid : String) (f : Client → Client) : Registry :=
  cs.map (fun e => if e.1 = uid then (e.1, f e.2) else e)

/-- The handler idiom: if client, ok := clients[uid]; ok then a
select/default send onto its channel.  Absent uid leaves the registry
unchanged. -/
def sendIfPresent (cs : Registry) (uid : String) (m : Message) : Registry :=
  updateClient cs uid (fun c => (trySend c m).1)

/-- Go map write s.clients[user.ID] = client (cmd/server/main.go line 90):
replace the entry if one exists, else append.  No teardown of any prior
entry happens here. -/
def registerClient (cs : Registry) (uid : String) (c : Client) : Registry :=
  if cs.any (fun e => e.1 = uid) then
    cs.map (fun e => if e.1 = uid then (e.1, c) else e)
  else
    cs ++ [(uid, c)]

/-- Go map delete(s.clients, uid). -/
def eraseClient (cs : Registry) (uid : String) : Registry :=
  cs.filter (fun e => e.1 ≠ uid)

/-- The persistent store (database.DB) restricted to the tables the
embedded operations touch. -/
structure DB where
  users : List User
  friends : List FriendRow
  groupMembers : List (String × String)
  messages : List DBMessage
  nextMessageID : Nat
deriving DecidableEq

/-- database.GetUser: SELECT from users WHERE id = uid. -/
def getUser (db : DB) (uid : String) : Option User :=
  db.users.find? (fun u => u.id = uid)

/-- database.UpdateUserStatus: UPDATE users SET status WHERE id = uid
(row-not-found error ignored by the callers embedded here). -/
def updateUserStatus (db : DB) (uid status : String) : DB :=
  { db with users := db.users.map (fun u => if u.id = uid then { u with status := status } else u) }

/-- database.SaveMessage: INSERT INTO messages ... RETURNING id.  The
generated id is the counter `nextMessageID`; the saved row (with its id
filled in) is returned alongside the new store. -/
def saveMessage (db : DB) (m : DBMessage) : DB × DBMessage :=
  let saved := { m with id := db.nextMessageID }
  ({ db with messages := db.messages ++ [saved], nextMessageID := db.nextMessageID + 1 }, saved)

/-- database.IsGroupMember: EXISTS row of group_members with this
(group_id, user_id). -/
def isGroupMember (db : DB) (uid gid : String) : Bool :=
  db.groupMembers.any (fun e => e.1 = gid ∧ e.2 = uid)

/-- database.GetGroupMembers: SELECT user_id FROM group_members WHERE
group_id = gid. -/
def getGroupMembers (db : DB) (gid : String) : List String :=
  (db.groupMembers.filter (fun e => e.1 = gid)).map (fun e => e.2)

/-- database.GetFriends: the users joined to a friends row of status
accepted containing uid in either column. -/
def getFriends (db : DB) (uid : String) : List User :=
  db.users.filter (fun u =>
    db.friends.any (fun r =>
      r.status = .accepted ∧ ((r.u1 = uid ∧ r.u2 = u.id) ∨ (r.u2 = uid ∧ r.u1 = u.id))))

/-- database.CreateFriendRequest: INSERT (fromID, toID, pending) ON
CONFLICT (user_id1, user_id2) DO UPDATE SET status = pending WHERE
friends.status = rejected.  The conflict target is the ordered pair, so
only a row with exactly (u1, u2) = (fromID, toID) is ever updated. -/
def createFriendRequest (friends : List FriendRow) (fromID toID : String) : List FriendRow :=
  if friends.any (fun r => r.u1 = fromID ∧ r.u2 = toID) then
    friends.map (fun r =>
      if r.u1 = fromID ∧ r.u2 = toID ∧ r.status = .rejected then
        { r with status := .pending }
      else r)
  else
    friends ++ [⟨fromID, toID, .pending⟩]

/-- database.AcceptFriendRequest: UPDATE friends SET status = accepted
WHERE the unordered pair matches AND status = pending; error when no row
was affected. -/
def acceptFriendRequest (friends : List FriendRow) (a b : String) : Except String (List FriendRow) :=
  if friends.any (fun r => ((r.u1 = a ∧ r.u2 = b) ∨ (r.u1 = b ∧ r.u2 = a)) ∧ r.status = .pending) then
    .ok (friends.map (fun r =>
      if ((r.u1 = a ∧ r.u2 = b) ∨ (r.u1 = b ∧ r.u2 = a)) ∧ r.status = .pending then
        { r with status := .accepted }
      else r))
  else
    .error "no pending friend request found"

/-- database.RejectFriendRequest: UPDATE friends SET status = rejected
WHERE the unordered pair matches AND status = pending; error when no row
was affected. -/
def rejectFriendRequest (friends : List FriendRow) (a b : String) : Except String (List FriendRow) :=
  if friends.any (fun r => ((r.u1 = a ∧ r.u2 = b) ∨ (r.u1 = b ∧ r.u2 = a)) ∧ r.status = .pending) then
    .ok (friends.map (fun r =>
      if ((r.u1 = a ∧ r.u2 = b) ∨ (r.u1 = b ∧ r.u2 = a)) ∧ r.status = .pending then
        { r with status := .rejected }
      else r))
  else
    .error "no pending friend request found"

/-- Go strings.Split(s, sep) for the one-character separator used by the
friend-request identifiers, on the underlying character list: split at
every occurrence of the dash, keeping empty segments. -/
def splitOnDash : List Char → List (List Char)
  | [] => [[]]
  | c :: cs =>
    match splitOnDash cs with
    | [] => [[]]
    | h :: t => if c = '-' then [] :: h :: t else (c :: h) :: t

/-- strings.Split(s, the dash) lifted back to String. -/
def splitDash (s : String) : List String :=
  (splitOnDash s.data).map List.asString

/-- Decimal digit character, for the %d formatting of the Unix time. -/
def digitChar (d : Nat) : Char :=
  match d with
  | 0 => '0' | 1 => '1' | 2 => '2' | 3 => '3' | 4 => '4'
  | 5 => '5' | 6 => '6' | 7 => '7' | 8 => '8' | 9 => '9'
  | _ => '*'

/-- Fuel-bounded digit emission, least significant digit peeled off each
step; the fuel n + 1 always suffices since the value shrinks by a factor
of ten per step. -/
def natToDigitsCore : Nat → Nat → List Char → List Char
  | 0, _, acc => acc
  | fuel + 1, n, acc =>
    if n < 10 then digitChar n :: acc
    else natToDigitsCore fuel (n / 10) (digitChar (n % 10) :: acc)

/-- Decimal digit list of a natural number, most significant first
(the rendering fmt.Sprintf applies to the %d verb). -/
def natToDigits (n : Nat) : List Char :=
  natToDigitsCore (n + 1) n []

/-- Decimal string of a natural number. -/
def natToStr (n : Nat) : String :=
  (natToDigits n).asString

/-- The friend-request identifier synthesized by handleFriendRequest
(messages.go) and HandleFriendRequest (friends.go):
fmt.Sprintf with the pattern fr-fromID-toID-unixTime. -/
def mkRequestID (fromID toID : String) (unixTime : Nat) : String :=
  "fr-" ++ fromID ++ "-" ++ toID ++ "-" ++ natToStr unixTime

/-- database.GetFriendRequestUsers: split the request id on dashes,
require exactly four parts the first of which is fr, then look the two
middle parts up as user ids. -/
def getFriendRequestUsers (db : DB) (requestID : String) : Except String (User × User) :=
  let parts := splitDash requestID
  if parts.length = 4 ∧ parts.getD 0 "" = "fr" then
    let fromID := parts.getD 1 ""
    let toID := parts.getD 2 ""
    match getUser db fromID with
    | none => .error "failed to get sender"
    | some fromUser =>
      match getUser db toID with
      | none => .error "failed to get recipient"
      | some toUser => .ok (fromUser, toUser)
  else
    .error "invalid request ID format"

/-- MessageHandler.createMessagePayload: the outbound payload built from a
saved message row (the row embeds every field the Go map carries). -/
def createMessagePayload (m : DBMessage) : Payload :=
  .msgP m

/-- One drained broadcast message (the body of the for-range loop in
Server.handleBroadcast): every registered Session with room gets the
message enqueued; a Session whose channel is full is closed and its entry
deleted from the registry.  Returns the surviving registry and the list of
Sessions torn down by this broadcast. -/
def handleBroadcastIter (cs : Registry) (msg : Message) : Registry × List Client :=
  match cs with
  | [] => ([], [])
  | (uid, c) :: rest =>
    if c.mailbox.length < sendChannelCapacity then
      ((uid, { c with mailbox := c.mailbox ++ [msg] }) :: (handleBroadcastIter rest msg).1,
       (handleBroadcastIter rest msg).2)
    else
      ((handleBroadcastIter rest msg).1, closeClient c :: (handleBroadcastIter rest msg).2)

/-- The handler-error branch of Server.readPump: build an error envelope,
select/default it onto the Session's own channel; on a full channel report
to errChan and return (terminating the pump).  The Bool is true when the
pump continues to the next inbound message. -/
def readPumpOnHandlerError (client : Client) (errText : String) (now : Nat) : Client × Bool :=
  let errorMsg := newErrorMessage errCodeInternalError errText now
  if client.mailbox.length < sendChannelCapacity then
    ({ client with mailbox := client.mailbox ++ [errorMsg] }, true)
  else
    (client, false)

/-- AuthHandler.HandleLogout: mark the user offline, broadcast the status
update, delete the registry entry (the redundant second delete of the
handleConnection teardown). -/
def handleLogout (db : DB) (cs : Registry) (bq : List Message) (uid : String) (now : Nat) :
    DB × Registry × List Message :=
  match getUser db uid with
  | none => (db, cs, bq)
  | some _ =>
    (updateUserStatus db uid "offline",
     eraseClient cs uid,
     bq ++ [newMessage .statusUpdate (.statusUpdateP uid "offline") now])

/-- The deferred teardown of Server.handleConnection (main.go lines 96 to
105): if ANY entry is registered under the userID — not necessarily the
Session this connection created — close this connection's own client,
delete the map entry, and run HandleLogout.  Returns the new registry,
store and broadcast queue, plus the closed own client when the branch was
taken. -/
def connCleanup (db : DB) (cs : Registry) (bq : List Message) (uid : String) (own : Client)
    (now : Nat) : (DB × Registry × List Message) × Option Client :=
  match lookupClient cs uid with
  | none => ((db, cs, bq), none)
  | some _ =>
    (handleLogout db (eraseClient cs uid) bq uid now, some (closeClient own))

/-- What the auth negotiator read from the fresh transport: a timeout or
decode failure, or a decoded first message. -/
inductive AuthRead where
  | timeoutOrDecodeError
  | decoded (m : Message)

/-- database.AuthenticateUser: look the username up; create the account on
first sight (status offline, then promoted); on a known username compare
the stored hash against the presented password; finally mark the user
online.  bcrypt comparison is modelled as string equality with the stored
hash. -/
def authenticateUser (db : DB) (username password : String) : Except String (User × DB) :=
  match db.users.find? (fun u => u.username = username) with
  | some u =>
    if u.passwordHash = password then
      .ok ({ u with status := "online" }, updateUserStatus db u.id "online")
    else
      .error "invalid password"
  | none =>
    let newUser : User := ⟨"uid-" ++ username, username, password, "online"⟩
    .ok (newUser, { db with users := db.users ++ [{ newUser with status := "online" }] })

/-- AuthHandler.HandleAuth: decode one message under the read deadline,
require type auth, decode the payload, authenticate against the store.
The post-success pushes (auth response, initial data, status broadcast)
write to the raw transport and the broadcast queue; only the error paths
matter for the registration claims, so the success value is the
authenticated user and updated store. -/
def handleAuth (db : DB) (read : AuthRead) : Except String (User × DB) :=
  match read with
  | .timeoutOrDecodeError => .error "failed to decode auth message"
  | .decoded m =>
    if m.type ≠ .auth then
      .error "expected auth message"
    else
      match m.payload with
      | .authP username password =>
        match authenticateUser db username password with
        | .error e => .error ("authentication failed: " ++ e)
        | .ok (user, db2) => .ok (user, db2)
      | _ => .error "invalid auth payload"

/-- Result of the auth phase of Server.handleConnection: the registry and
store afterwards, the Session constructed (if any), and whether the
transport was closed (the deferred conn.Close on the error return). -/
structure AuthPhaseResult where
  clients : Registry
  db : DB
  session : Option Client
  connClosed : Bool
deriving DecidableEq

/-- The auth phase of Server.handleConnection (main.go lines 70 to 91): on
a HandleAuth error, return — the deferred conn.Close fires and nothing was
registered; on success construct the Client and install it in the
registry. -/
def handleConnectionAuthPhase (cs : Registry) (db : DB) (read : AuthRead) : AuthPhaseResult :=
  match handleAuth db read with
  | .error _ => ⟨cs, db, none, true⟩
  | .ok (user, db2) =>
    let client := newClient user.id user.username
    ⟨registerClient cs user.id client, db2, some client, false⟩

/-- MessageHandler.handleGlobalMessage (messages.go lines 149 to 184):
reject empty content before any effect, otherwise persist and push the
formatted message onto the shared broadcast queue.  The Option String is
the handler's returned error. -/
def handleGlobalMessage (db : DB) (cs : Registry) (bq : List Message) (sender : Client)
    (content : String) (now : Nat) : (DB × Registry × List Message) × Option String :=
  if content = "" then
    ((db, cs, bq), some "empty message content")
  else
    let r := saveMessage db ⟨0, content, sender.id, sender.username, none, none, now⟩
    let broadcastMsg := newMessage .globalMessage (createMessagePayload r.2) now
    ((r.1, cs, bq ++ [broadcastMsg]), none)

/-- MessageHandler.handleDirectMessage (messages.go lines 186 to 245):
validate, persist, then look the recipient up — an offline recipient makes
the handler return a recipient-not-found error (after the row was already
saved) and no echo is ever enqueued; an online recipient and the sender
both get a select/default enqueue of the formatted message. -/
def handleDirectMessage (db : DB) (cs : Registry) (sender : Client)
    (content recipientID : String) (now : Nat) : (DB × Registry) × Option String :=
  if content = "" ∨ recipientID = "" then
    ((db, cs), some "invalid message content or recipient")
  else
    let r := saveMessage db ⟨0, content, sender.id, sender.username, some recipientID, none, now⟩
    match lookupClient cs recipientID with
    | none => ((r.1, cs), some "recipient not found")
    | some _ =>
      let directMsg := newMessage .directMessage (createMessagePayload r.2) now
      let cs1 := sendIfPresent cs recipientID directMsg
      let cs2 := sendIfPresent cs1 sender.id directMsg
      ((r.1, cs2), none)

/-- MessageHandler.handleGroupMessage (messages.go lines 247 to 306):
check membership first — a non-member is rejected before anything is
persisted or enqueued; a member's message is saved and then
select/default-enqueued onto every online member's channel. -/
def handleGroupMessage (db : DB) (cs : Registry) (sender : Client)
    (content groupID : String) (now : Nat) : (DB × Registry) × Option String :=
  if ¬ isGroupMember db sender.id groupID then
    ((db, cs), some "user is not a member of this group")
  else
    let r := saveMessage db ⟨0, content, sender.id, sender.username, none, some groupID, now⟩
    let members := getGroupMembers r.1 groupID
    let groupMsg := newMessage .groupMessage (createMessagePayload r.2) now
    let cs2 := members.foldl (fun acc uid => sendIfPresent acc uid groupMsg) cs
    ((r.1, cs2), none)

/-- protocol.UserInfo built from a users row, as in
FriendHandler.sendUpdatedFriendList. -/
def mkUserInfo (u : User) : UserInfo :=
  ⟨u.id, u.username, u.status⟩

/-- FriendHandler.sendUpdatedFriendList (friends.go lines 171 to 206):
read the accepted-friends list from the store and, when the user is
online, select/default a friend_list envelope onto its channel. -/
def sendUpdatedFriendList (db : DB) (cs : Registry) (uid : String) (now : Nat) : Registry :=
  let friendInfos := (getFriends db uid).map mkUserInfo
  sendIfPresent cs uid (newMessage .friendList (.friendListP friendInfos) now)

/-- FriendHandler.HandleFriendResponse (friends.go lines 94 to 169):
resolve the two parties from the request id, reject a responder other than
the intended recipient, flip the relationship status, notify requester and
responder, and on acceptance push a refreshed friend list to both. -/
def handleFriendResponse (db : DB) (cs : Registry) (userID requestID : String)
    (accept : Bool) (now : Nat) : (DB × Registry) × Option String :=
  match getFriendRequestUsers db requestID with
  | .error e => ((db, cs), some ("failed to get friend request: " ++ e))
  | .ok (fromUser, toUser) =>
    if userID ≠ toUser.id then
      ((db, cs), some "unauthorized to respond to this friend request")
    else
      let updated :=
        if accept then acceptFriendRequest db.friends fromUser.id toUser.id
        else rejectFriendRequest db.friends fromUser.id toUser.id
      match updated with
      | .error e => ((db, cs), some ("failed to update friend request: " ++ e))
      | .ok friends2 =>
        let db2 := { db with friends := friends2 }
        let toRequester := newMessage .friendResponse (.friendResponseP requestID toUser.username accept) now
        let cs1 := sendIfPresent cs fromUser.id toRequester
        let toResponder := newMessage .friendResponse (.friendResponseP requestID fromUser.username accept) now
        let cs2 := sendIfPresent cs1 toUser.id toResponder
        if accept then
          let cs3 := sendUpdatedFriendList db2 cs2 fromUser.id now
          let cs4 := sendUpdatedFriendList db2 cs3 toUser.id now
          ((db2, cs4), none)
        else
          ((db2, cs2), none)

/-! Helper lemmas about the registry operations. -/

theorem lookupClient_nil (uid : String) : lookupClient [] uid = none := rfl

theorem lookupClient_cons (e : String × Client) (rest : Registry) (uid : String) :
    lookupClient (e :: rest) uid = if e.1 = uid then some e.2 else lookupClient rest uid := by
  by_cases h : e.1 = uid <;> simp [lookupClient, List.find?_cons, h]

theorem updateClient_nil (uid : String) (f : Client → Client) :
    updateClient [] uid f = [] := rfl

theorem updateClient_cons (e : String × Client) (rest : Registry) (uid : String)
    (f : Client → Client) :
    updateClient (e :: rest) uid f =
      (if e.1 = uid then (e.1, f e.2) else e) :: updateClient rest uid f := by
  by_cases h : e.1 = uid <;> simp [updateClient, h]

theorem lookupClient_updateClient_self (cs : Registry) (uid : String) (f : Client → Client) :
    lookupClient (updateClient cs uid f) uid = (lookupClient cs uid).map f := by
  induction cs with
  | nil => rfl
  | cons e rest ih =>
    rw [updateClient_cons, lookupClient_cons, lookupClient_cons]
    by_cases h : e.1 = uid
    · simp [h]
    · simp [h, ih]

theorem lookupClient_updateClient_ne (cs : Registry) (k uid : String) (f : Client → Client)
    (h : uid ≠ k) : lookupClient (updateClient cs k f) uid = lookupClient cs uid := by
  induction cs with
  | nil => rfl
  | cons e rest ih =>
    rw [updateClient_cons, lookupClient_cons, lookupClient_cons]
    have h2 : ¬ (k = uid) := fun hh => h hh.symm
    by_cases hk : e.1 = k
    · have : ¬ (e.1 = uid) := by
        intro hu
        exact h (hu ▸ hk)
      simp [hk, this, h2, ih]
    · by_cases hu : e.1 = uid
      · simp [hk, hu, h]
      · simp [hk, hu, ih]

theorem lookupClient_sendIfPresent_self (cs : Registry) (uid : String) (m : Message) :
    lookupClient (sendIfPresent cs uid m) uid = (lookupClient cs uid).map (fun c => (trySend c m).1) := by
  simpa [sendIfPresent] using lookupClient_updateClient_self cs uid (fun c => (trySend c m).1)

theorem lookupClient_sendIfPresent_ne (cs : Registry) (k uid : String) (m : Message)
    (h : uid ≠ k) : lookupClient (sendIfPresent cs k m) uid = lookupClient cs uid :=
  lookupClient_updateClient_ne cs k uid _ h

theorem eraseClient_idem (cs : Registry) (uid : String) :
    eraseClient (eraseClient cs uid) uid = eraseClient cs uid := by
  simp [eraseClient, List.filter_filter, Bool.and_self]

theorem lookupClient_eraseClient_self (cs : Registry) (uid : String) :
    lookupClient (eraseClient cs uid) uid = none := by
  induction cs with
  | nil => rfl
  | cons e rest ih =>
    simp only [eraseClient] at ih ⊢
    by_cases h : e.1 = uid
    · rw [List.filter_cons_of_neg]
      · exact ih
      · simp [h]
    · rw [List.filter_cons_of_pos, lookupClient_cons]
      · rw [if_neg h]
        simpa using ih
      · simp [h]

theorem registerClient_of_any (cs : Registry) (uid : String) (c : Client)
    (h : cs.any (fun e => e.1 = uid) = true) :
    registerClient cs uid c = cs.map (fun e => if e.1 = uid then (e.1, c) else e) := by
  simp [registerClient, h]

theorem registerClient_of_not_any (cs : Registry) (uid : String) (c : Client)
    (h : cs.any (fun e => e.1 = uid) = false) :
    registerClient cs uid c = cs ++ [(uid, c)] := by
  simp [registerClient, h]

theorem lookupClient_map_replace (cs : Registry) (uid : String) (c : Client)
    (h : cs.any (fun e => e.1 = uid) = true) :
    lookupClient (cs.map (fun e => if e.1 = uid then (e.1, c) else e)) uid = some c := by
  induction cs with
  | nil => simp at h
  | cons e rest ih =>
    by_cases he : e.1 = uid
    · simp [List.map_cons, lookupClient_cons, he]
    · have h2 : rest.any (fun e => e.1 = uid) = true := by
        simp [List.any_cons, he] at h
        simpa using h
      simp [List.map_cons, lookupClient_cons, he, ih h2]

theorem lookupClient_append_new (cs : Registry) (uid : String) (c : Client)
    (h : cs.any (fun e => e.1 = uid) = false) :
    lookupClient (cs ++ [(uid, c)]) uid = some c := by
  induction cs with
  | nil => simp [lookupClient_cons]
  | cons e rest ih =>
    simp only [List.any_cons, Bool.or_eq_false_iff] at h
    have he : ¬ (e.1 = uid) := by simpa using h.1
    simp [List.cons_append, lookupClient_cons, he, ih h.2]

theorem lookupClient_registerClient_self (cs : Registry) (uid : String) (c : Client) :
    lookupClient (registerClient cs uid c) uid = some c := by
  by_cases h : cs.any (fun e => e.1 = uid) = true
  · rw [registerClient_of_any cs uid c h]
    exact lookupClient_map_replace cs uid c h
  · have h2 : cs.any (fun e => e.1 = uid) = false := by
      cases hb : cs.any (fun e => e.1 = uid)
      · rfl
      · exact absurd hb h
    rw [registerClient_of_not_any cs uid c h2]
    exact lookupClient_append_new cs uid c h2

theorem registerClient_mem (cs : Registry) (uid : String) (c : Client) :
    ∀ e ∈ registerClient cs uid c, e = (uid, c) ∨ (e ∈ cs ∧ e.1 ≠ uid) := by
  intro e he
  by_cases h : cs.any (fun x => x.1 = uid) = true
  · rw [registerClient_of_any _ _ _ h] at he
    rcases List.mem_map.mp he with ⟨x, hx, hmap⟩
    by_cases hx1 : x.1 = uid
    · left
      rw [← hmap]
      simp [hx1]
    · right
      rw [← hmap]
      simp only [if_neg hx1]
      exact ⟨hx, hx1⟩
  · have h2 : cs.any (fun x => x.1 = uid) = false := by
      cases hb : cs.any (fun x => x.1 = uid)
      · rfl
      · exact absurd hb h
    rw [registerClient_of_not_any _ _ _ h2] at he
    have hall : ∀ x ∈ cs, ¬ (x.1 = uid) := by
      intro x hx
      have := List.any_eq_false.mp h2 x hx
      simpa using this
    rcases List.mem_append.mp he with h1 | h1
    · exact Or.inr ⟨h1, hall e h1⟩
    · left
      simpa using h1

theorem registerClient_keys_nodup (cs : Registry) (uid : String) (c : Client)
    (h : (cs.map Prod.fst).Nodup) : ((registerClient cs uid c).map Prod.fst).Nodup := by
  by_cases ha : cs.any (fun x => x.1 = uid) = true
  · rw [registerClient_of_any _ _ _ ha, List.map_map]
    have hfun : (Prod.fst ∘ fun e : String × Client => if e.1 = uid then (e.1, c) else e) = Prod.fst := by
      funext e
      by_cases hx : e.1 = uid <;> simp [hx]
    rw [hfun]
    exact h
  · have h2 : cs.any (fun x => x.1 = uid) = false := by
      cases hb : cs.any (fun x => x.1 = uid)
      · rfl
      · exact absurd hb ha
    rw [registerClient_of_not_any _ _ _ h2, List.map_append]
    rw [List.nodup_append]
    refine ⟨h, List.nodup_singleton uid, ?_⟩
    intro a hmem hsing
    rcases List.mem_map.mp hmem with ⟨x, hx, hfst⟩
    have hnot := List.any_eq_false.mp h2 x hx
    have hsing2 : a = uid := by simpa using hsing
    rw [hsing2] at hfst
    simp [hfst] at hnot

theorem connCleanup_removes (db : DB) (cs : Registry) (bq : List Message) (uid : String)
    (own d : Client) (now : Nat) (h : lookupClient cs uid = some d) :
    (connCleanup db cs bq uid own now).1.2.1 = eraseClient cs uid ∧
    (connCleanup db cs bq uid own now).2 = some (closeClient own) := by
  simp only [connCleanup, h, handleLogout]
  cases hg : getUser db uid with
  | none => exact ⟨rfl, trivial⟩
  | some u => exact ⟨eraseClient_idem cs uid, trivial⟩

/-- Claim C1, amended: the registry keeps at most one entry per userID
(register preserves key uniqueness and makes the new Session the entry),
but register performs no teardown — every surviving entry other than the
new one is exactly as it was, and the replaced Session is never closed by
the registration path — and the connection teardown is NOT guarded by
Session identity: whenever any entry exists for the userID it deletes that
entry (closing only its own client), so a stale teardown does remove a
newer registration. -/
theorem C1_registry_register_cleanup (cs : Registry) (uid : String) (c : Client)
    (db : DB) (bq : List Message) (own d : Client) (now : Nat) :
    lookupClient (registerClient cs uid c) uid = some c ∧
    (∀ e ∈ registerClient cs uid c, e = (uid, c) ∨ (e ∈ cs ∧ e.1 ≠ uid)) ∧
    ((cs.map Prod.fst).Nodup → ((registerClient cs uid c).map Prod.fst).Nodup) ∧
    (lookupClient cs uid = some d →
      (connCleanup db cs bq uid own now).1.2.1 = eraseClient cs uid ∧
      (connCleanup db cs bq uid own now).2 = some (closeClient own)) :=
  ⟨lookupClient_registerClient_self cs uid c,
   registerClient_mem cs uid c,
   registerClient_keys_nodup cs uid c,
   fun h => connCleanup_removes db cs bq uid own d now h⟩

/-- Claim C1 counterexample: the registry holds Session c2 for user u, and
the teardown of a DIFFERENT Session c1 (a stale connection for the same
user) runs; the claim says this teardown is a no-op, but the code deletes
the current entry, so the lookup afterwards is none. -/
theorem C1_counterexample :
    (⟨"u", "a", [], false, false⟩ : Client) ≠ ⟨"u", "a", [newMessage .ping .nilP 0], false, false⟩ ∧
    lookupClient
      (connCleanup ⟨[], [], [], [], 0⟩
        [("u", ⟨"u", "a", [newMessage .ping .nilP 0], false, false⟩)]
        [] "u" ⟨"u", "a", [], false, false⟩ 0).1.2.1 "u" = none := by
  decide

theorem handleBroadcastIter_none_of_keys (cs : Registry) (msg : Message) (uid : String)
    (h : ∀ e ∈ cs, e.1 ≠ uid) :
    lookupClient (handleBroadcastIter cs msg).1 uid = none := by
  induction cs with
  | nil => rfl
  | cons e rest ih =>
    have hhead : e.1 ≠ uid := h e (List.mem_cons_self e rest)
    have htail : ∀ x ∈ rest, x.1 ≠ uid := fun x hx => h x (List.mem_cons_of_mem e hx)
    rcases e with ⟨k, d⟩
    by_cases hr : d.mailbox.length < sendChannelCapacity
    · simp only [handleBroadcastIter, hr, if_true]
      rw [lookupClient_cons]
      simp only [if_neg hhead]
      exact ih htail
    · simp only [handleBroadcastIter, hr, if_false]
      exact ih htail

theorem handleBroadcastIter_full_torn (cs : Registry) (msg : Message) (uid : String)
    (c : Client) (hmem : (uid, c) ∈ cs)
    (hfull : ¬ c.mailbox.length < sendChannelCapacity) :
    closeClient c ∈ (handleBroadcastIter cs msg).2 := by
  induction cs with
  | nil => cases hmem
  | cons e rest ih =>
    rcases e with ⟨k, d⟩
    rcases List.mem_cons.mp hmem with hEq | hrest
    · cases hEq
      simp only [handleBroadcastIter, hfull, if_false]
      exact List.mem_cons_self _ _
    · by_cases hr : d.mailbox.length < sendChannelCapacity
      · simp only [handleBroadcastIter, hr, if_true]
        exact ih hrest
      · simp only [handleBroadcastIter, hr, if_false]
        exact List.mem_cons_of_mem _ (ih hrest)

theorem handleBroadcastIter_full_removed (cs : Registry) (msg : Message) (uid : String)
    (c : Client) (hmem : (uid, c) ∈ cs) (hnd : (cs.map Prod.fst).Nodup)
    (hfull : ¬ c.mailbox.length < sendChannelCapacity) :
    lookupClient (handleBroadcastIter cs msg).1 uid = none := by
  induction cs with
  | nil => cases hmem
  | cons e rest ih =>
    rcases e with ⟨k, d⟩
    rw [List.map_cons, List.nodup_cons] at hnd
    rcases List.mem_cons.mp hmem with hEq | hrest
    · cases hEq
      simp only [handleBroadcastIter, hfull, if_false]
      refine handleBroadcastIter_none_of_keys rest msg uid ?_
      intro x hx hx1
      apply hnd.1
      rw [← hx1]
      have hmm : Prod.fst x ∈ rest.map Prod.fst := List.mem_map_of_mem Prod.fst hx
      exact hmm
    · have hk : k ≠ uid := by
        intro hkEq
        apply hnd.1
        rw [hkEq]
        have hmm : Prod.fst (uid, c) ∈ rest.map Prod.fst := List.mem_map_of_mem Prod.fst hrest
        exact hmm
      by_cases hr : d.mailbox.length < sendChannelCapacity
      · simp only [handleBroadcastIter, hr, if_true]
        rw [lookupClient_cons]
        simp only [if_neg hk]
        exact ih hrest hnd.2
      · simp only [handleBroadcastIter, hr, if_false]
        exact ih hrest hnd.2

theorem handleBroadcastIter_room_delivered (cs : Registry) (msg : Message) (uid : String)
    (c : Client) (hmem : (uid, c) ∈ cs)
    (hroom : c.mailbox.length < sendChannelCapacity) :
    (uid, { c with mailbox := c.mailbox ++ [msg] }) ∈ (handleBroadcastIter cs msg).1 := by
  induction cs with
  | nil => cases hmem
  | cons e rest ih =>
    rcases e with ⟨k, d⟩
    rcases List.mem_cons.mp hmem with hEq | hrest
    · cases hEq
      simp only [handleBroadcastIter, hroom, if_true]
      exact List.mem_cons_self _ _
    · by_cases hr : d.mailbox.length < sendChannelCapacity
      · simp only [handleBroadcastIter, hr, if_true]
        exact List.mem_cons_of_mem _ (ih hrest)
      · simp only [handleBroadcastIter, hr, if_false]
        exact ih hrest

/-- Claim C2, confirmed: when a broadcast message is handled, every
registered Session whose mailbox is full is closed (transport closed via
Client.Close) and, under map key uniqueness, its entry is gone from the
registry afterwards; every registered Session with room gets the message
appended to its mailbox. -/
theorem C2_broadcast_backpressure (cs : Registry) (msg : Message) (uid : String)
    (c : Client) (hmem : (uid, c) ∈ cs) :
    (¬ c.mailbox.length < sendChannelCapacity →
      closeClient c ∈ (handleBroadcastIter cs msg).2 ∧
      ((cs.map Prod.fst).Nodup → lookupClient (handleBroadcastIter cs msg).1 uid = none)) ∧
    (c.mailbox.length < sendChannelCapacity →
      (uid, { c with mailbox := c.mailbox ++ [msg] }) ∈ (handleBroadcastIter cs msg).1) :=
  ⟨fun hfull =>
    ⟨handleBroadcastIter_full_torn cs msg uid c hmem hfull,
     fun hnd => handleBroadcastIter_full_removed cs msg uid c hmem hnd hfull⟩,
   fun hroom => handleBroadcastIter_room_delivered cs msg uid c hmem hroom⟩

set_option maxRecDepth 100000 in
/-- Witness for C2_broadcast_backpressure: a two-Session registry, one
with a full mailbox (256 queued envelopes) and one with room; the full one
is torn down and removed, the other gets the broadcast. -/
theorem C2_witness :
    ((("full" : String), (⟨"full", "f", List.replicate 256 (newMessage .ping .nilP 0), false, false⟩ : Client)) ∈
      ([("full", ⟨"full", "f", List.replicate 256 (newMessage .ping .nilP 0), false, false⟩),
        ("ok", ⟨"ok", "o", [], false, false⟩)] : Registry)) ∧
    closeClient ⟨"full", "f", List.replicate 256 (newMessage .ping .nilP 0), false, false⟩ ∈
      (handleBroadcastIter
        [("full", ⟨"full", "f", List.replicate 256 (newMessage .ping .nilP 0), false, false⟩),
         ("ok", ⟨"ok", "o", [], false, false⟩)] (newMessage .globalMessage .nilP 1)).2 :=
  ⟨by decide,
   ((C2_broadcast_backpressure
      [("full", ⟨"full", "f", List.replicate 256 (newMessage .ping .nilP 0), false, false⟩),
       ("ok", ⟨"ok", "o", [], false, false⟩)]
      (newMessage .globalMessage .nilP 1) "full"
      ⟨"full", "f", List.replicate 256 (newMessage .ping .nilP 0), false, false⟩
      (by decide)).1 (by decide)).1⟩

/-- Witness for C1_registry_register_cleanup at a concrete registry. -/
theorem C1_witness :
    lookupClient [(("u" : String), (⟨"u", "b", [], false, false⟩ : Client))] "u" =
      some ⟨"u", "b", [], false, false⟩ ∧
    (connCleanup ⟨[], [], [], [], 0⟩ [("u", ⟨"u", "b", [], false, false⟩)] [] "u"
        ⟨"u", "c", [], false, false⟩ 0).1.2.1 =
      eraseClient [("u", ⟨"u", "b", [], false, false⟩)] "u" :=
  ⟨by decide,
   ((C1_registry_register_cleanup [("u", ⟨"u", "b", [], false, false⟩)] "u"
      ⟨"u", "x", [], false, false⟩ ⟨[], [], [], [], 0⟩ []
      ⟨"u", "c", [], false, false⟩ ⟨"u", "b", [], false, false⟩ 0).2.2.2 (by decide)).1⟩

/-- Claim C6, amended: on a domain-level handler error the read pump
enqueues an internal-error envelope onto the Session's own mailbox and
continues — but only when the mailbox has room; a full mailbox makes the
pump report failure and terminate (triggering the Session teardown)
instead of continuing. -/
theorem C6_handler_error_keeps_connection (client : Client) (errText : String) (now : Nat) :
    (client.mailbox.length < sendChannelCapacity →
      readPumpOnHandlerError client errText now =
        ({ client with mailbox := client.mailbox ++ [newErrorMessage errCodeInternalError errText now] },
         true)) ∧
    (¬ client.mailbox.length < sendChannelCapacity →
      readPumpOnHandlerError client errText now = (client, false)) := by
  constructor <;> intro h <;> simp [readPumpOnHandlerError, h]

set_option maxRecDepth 100000 in
/-- Claim C6 counterexample: a Session whose mailbox is full (256 queued
envelopes) when a handler returns a domain error: no error envelope is
enqueued and the pump terminates (continue flag false), where the claim
says the Session is never terminated by a domain-level handler error. -/
theorem C6_counterexample :
    (readPumpOnHandlerError
      ⟨"u", "a", List.replicate 256 (newMessage .ping .nilP 0), false, false⟩
      "unknown message type: x" 5).2 = false ∧
    (readPumpOnHandlerError
      ⟨"u", "a", List.replicate 256 (newMessage .ping .nilP 0), false, false⟩
      "unknown message type: x" 5).1 =
      ⟨"u", "a", List.replicate 256 (newMessage .ping .nilP 0), false, false⟩ := by
  decide

/-- Witness for C6_handler_error_keeps_connection: an empty mailbox has
room, so the error envelope is enqueued and the pump continues. -/
theorem C6_witness :
    ((⟨"u", "a", [], false, false⟩ : Client)).mailbox.length < sendChannelCapacity ∧
    readPumpOnHandlerError ⟨"u", "a", [], false, false⟩ "bad" 3 =
      ({ (⟨"u", "a", [], false, false⟩ : Client) with
          mailbox := [] ++ [newErrorMessage errCodeInternalError "bad" 3] }, true) :=
  ⟨by decide,
   (C6_handler_error_keeps_connection ⟨"u", "a", [], false, false⟩ "bad" 3).1 (by decide)⟩

/-- Claim C10, confirmed: a global message with empty content is rejected
with an error before any effect — the store and the broadcast queue are
returned unchanged — while a group message with empty content from a group
member passes (no empty-content check) and is persisted. -/
theorem C10_empty_content_checks (db : DB) (cs : Registry) (bq : List Message)
    (sender : Client) (gid : String) (now : Nat)
    (hmem : isGroupMember db sender.id gid = true) :
    handleGlobalMessage db cs bq sender "" now = ((db, cs, bq), some "empty message content") ∧
    (handleGroupMessage db cs sender "" gid now).2 = none ∧
    (⟨db.nextMessageID, "", sender.id, sender.username, none, some gid, now⟩ : DBMessage) ∈
      (handleGroupMessage db cs sender "" gid now).1.1.messages := by
  refine ⟨rfl, ?_, ?_⟩
  · simp [handleGroupMessage, hmem]
  · simp [handleGroupMessage, hmem, saveMessage]

/-- Witness for C10_empty_content_checks: a store where the sender is a
member of group g. -/
theorem C10_witness :
    isGroupMember ⟨[], [], [("g", "s")], [], 0⟩ (⟨"s", "a", [], false, false⟩ : Client).id "g" = true ∧
    handleGlobalMessage ⟨[], [], [("g", "s")], [], 0⟩ [] [] ⟨"s", "a", [], false, false⟩ "" 2 =
      ((⟨[], [], [("g", "s")], [], 0⟩, [], []), some "empty message content") :=
  ⟨by decide,
   (C10_empty_content_checks ⟨[], [], [("g", "s")], [], 0⟩ [] [] ⟨"s", "a", [], false, false⟩
      "g" 2 (by decide)).1⟩

/-- Claim C3, amended: a direct message to an offline recipient is
persisted to the store, but the handler then returns a recipient-not-found
error (which the read pump surfaces to the sender as an error envelope)
instead of skipping silently, and the echo is NOT enqueued onto the
sender's mailbox — the registry is completely untouched. -/
theorem C3_direct_message_offline_recipient (db : DB) (cs : Registry) (sender : Client)
    (content recipientID : String) (now : Nat)
    (hc : content ≠ "") (hr : recipientID ≠ "")
    (hoff : lookupClient cs recipientID = none) :
    (handleDirectMessage db cs sender content recipientID now).2 = some "recipient not found" ∧
    (handleDirectMessage db cs sender content recipientID now).1.2 = cs ∧
    (handleDirectMessage db cs sender content recipientID now).1.1.messages =
      db.messages ++
        [⟨db.nextMessageID, content, sender.id, sender.username, some recipientID, none, now⟩] := by
  refine ⟨?_, ?_, ?_⟩ <;> simp [handleDirectMessage, hc, hr, hoff, saveMessage]

/-- Claim C3 counterexample: sender s online, recipient r offline; the
handler returns an error (the claim says it returns success) and the
sender's mailbox is left without the echo (the claim says the echo is
enqueued). -/
theorem C3_counterexample :
    (handleDirectMessage ⟨[], [], [], [], 0⟩ [("s", ⟨"s", "alice", [], false, false⟩)]
      ⟨"s", "alice", [], false, false⟩ "hi" "r" 7).2 = some "recipient not found" ∧
    (handleDirectMessage ⟨[], [], [], [], 0⟩ [("s", ⟨"s", "alice", [], false, false⟩)]
      ⟨"s", "alice", [], false, false⟩ "hi" "r" 7).1.2 =
      [("s", ⟨"s", "alice", [], false, false⟩)] := by
  decide

/-- Witness for C3_direct_message_offline_recipient with a different
concrete offline recipient. -/
theorem C3_witness :
    ("hello" : String) ≠ "" ∧ ("bob" : String) ≠ "" ∧
    lookupClient [("me", ⟨"me", "m", [], false, false⟩)] "bob" = none ∧
    (handleDirectMessage ⟨[], [], [], [], 5⟩ [("me", ⟨"me", "m", [], false, false⟩)]
      ⟨"me", "m", [], false, false⟩ "hello" "bob" 9).1.1.messages =
      ([] : List DBMessage) ++ [⟨5, "hello", "me", "m", some "bob", none, 9⟩] :=
  ⟨by decide, by decide, by decide,
   (C3_direct_message_offline_recipient ⟨[], [], [], [], 5⟩
      [("me", ⟨"me", "m", [], false, false⟩)] ⟨"me", "m", [], false, false⟩
      "hello" "bob" 9 (by decide) (by decide) (by decide)).2.2⟩

/-- Claim C9, confirmed: whenever the auth handshake fails (timeout or
decode failure, a first message that is not an auth message, a malformed
auth payload, or failed credentials), the connection handler closes the
transport, constructs no Session, and leaves the registry exactly as it
was — the userID never appears because of that connection. -/
theorem C9_auth_failure_atomicity (cs : Registry) (db : DB) (read : AuthRead) (e : String)
    (hfail : handleAuth db read = .error e) :
    handleConnectionAuthPhase cs db read = ⟨cs, db, none, true⟩ := by
  simp [handleConnectionAuthPhase, hfail]

/-- Witness for C9_auth_failure_atomicity: the first decoded message is a
ping, not an auth message; the handshake fails and nothing is
registered. -/
theorem C9_witness :
    handleAuth ⟨[], [], [], [], 0⟩ (.decoded (newMessage .ping .nilP 0)) =
      .error "expected auth message" ∧
    handleConnectionAuthPhase [] ⟨[], [], [], [], 0⟩ (.decoded (newMessage .ping .nilP 0)) =
      ⟨[], ⟨[], [], [], [], 0⟩, none, true⟩ :=
  ⟨rfl,
   C9_auth_failure_atomicity [] ⟨[], [], [], [], 0⟩ (.decoded (newMessage .ping .nilP 0))
     "expected auth message" rfl⟩

/-- Claim C7, amended: CreateFriendRequest is keyed on the ordered pair
(requester, target): with no (from, to) row it inserts a fresh pending
row; an existing (from, to) row that is not rejected makes the request a
no-op; an existing rejected (from, to) row is re-opened to pending.  A
relationship stored in the opposite direction is NOT matched by the
conflict target, so the idempotence and the at-most-one-active-row
invariant do not hold across the unordered pair. -/
theorem C7_create_friend_request_semantics (friends : List FriendRow) (a b : String) :
    (friends.any (fun r => r.u1 = a ∧ r.u2 = b) = false →
      createFriendRequest friends a b = friends ++ [⟨a, b, .pending⟩]) ∧
    ((∃ r ∈ friends, r.u1 = a ∧ r.u2 = b) →
      (∀ r ∈ friends, r.u1 = a → r.u2 = b → r.status ≠ .rejected) →
      createFriendRequest friends a b = friends) ∧
    ((⟨a, b, .rejected⟩ : FriendRow) ∈ friends →
      (⟨a, b, .pending⟩ : FriendRow) ∈ createFriendRequest friends a b) := by
  refine ⟨?_, ?_, ?_⟩
  · intro h
    have hne : ¬ ((friends.any (fun r => r.u1 = a ∧ r.u2 = b)) = true) := by
      rw [h]
      exact Bool.false_ne_true
    rw [createFriendRequest, if_neg hne]
  · intro hex hall
    have hany : friends.any (fun r => r.u1 = a ∧ r.u2 = b) = true := by
      rcases hex with ⟨r, hr, h1, h2⟩
      exact List.any_eq_true.mpr ⟨r, hr, by simp [h1, h2]⟩
    rw [createFriendRequest, if_pos (by simpa using hany)]
    have hcong : ∀ r ∈ friends,
        (if r.u1 = a ∧ r.u2 = b ∧ r.status = FriendStatus.rejected then
          { r with status := FriendStatus.pending } else r) = id r := by
      intro r hr
      have : ¬ (r.u1 = a ∧ r.u2 = b ∧ r.status = FriendStatus.rejected) := by
        rintro ⟨h1, h2, h3⟩
        exact hall r hr h1 h2 h3
      simp [this]
    rw [List.map_congr_left hcong, List.map_id]
  · intro hmem
    have hany : friends.any (fun r => r.u1 = a ∧ r.u2 = b) = true :=
      List.any_eq_true.mpr ⟨⟨a, b, .rejected⟩, hmem, by simp⟩
    rw [createFriendRequest, if_pos (by simpa using hany)]
    have himg := List.mem_map_of_mem
      (fun r : FriendRow =>
        if r.u1 = a ∧ r.u2 = b ∧ r.status = FriendStatus.rejected then
          { r with status := FriendStatus.pending } else r) hmem
    simpa using himg

/-- Claim C7 counterexample: a pending relationship stored as (b, a); user
a then requests b.  The claim says this is a no-op, but the insert does
not conflict with the reversed row, so a second pending row appears and
the unordered pair now has two active rows. -/
theorem C7_counterexample :
    createFriendRequest [⟨"b", "a", .pending⟩] "a" "b" =
      [⟨"b", "a", .pending⟩, ⟨"a", "b", .pending⟩] ∧
    (([⟨"b", "a", FriendStatus.pending⟩, ⟨"a", "b", FriendStatus.pending⟩] : List FriendRow).filter
      (fun r => (r.status = FriendStatus.pending ∨ r.status = FriendStatus.accepted) ∧
        ((r.u1 = "a" ∧ r.u2 = "b") ∨ (r.u1 = "b" ∧ r.u2 = "a")))).length = 2 := by
  decide

/-- Witness for C7_create_friend_request_semantics: a same-direction
pending row makes the request a no-op. -/
theorem C7_witness :
    (∃ r ∈ ([⟨"a", "b", FriendStatus.pending⟩] : List FriendRow), r.u1 = "a" ∧ r.u2 = "b") ∧
    createFriendRequest [⟨"a", "b", .pending⟩] "a" "b" = [⟨"a", "b", .pending⟩] :=
  ⟨by decide,
   (C7_create_friend_request_semantics [⟨"a", "b", .pending⟩] "a" "b").2.1
     (by decide) (by decide)⟩

/-! Helper lemmas for the friend-request identifier round trip. -/

theorem data_append (a b : String) : (a ++ b).data = a.data ++ b.data := rfl

theorem natToStr_data (n : Nat) : (natToStr n).data = natToDigits n := rfl

theorem asString_data (s : String) : List.asString s.data = s := by
  cases s
  rfl

theorem digitChar_ne_dash (d : Nat) : digitChar d ≠ '-' := by
  rcases d with _|_|_|_|_|_|_|_|_|_|d <;>
    first
    | decide
    | exact (by decide : ('*' : Char) ≠ '-')

theorem natToDigitsCore_no_dash (fuel : Nat) :
    ∀ (n : Nat) (acc : List Char), (∀ c ∈ acc, c ≠ '-') →
      ∀ c ∈ natToDigitsCore fuel n acc, c ≠ '-' := by
  induction fuel with
  | zero => intro n acc hacc c hc; exact hacc c hc
  | succ fuel ih =>
    intro n acc hacc c hc
    rw [natToDigitsCore] at hc
    by_cases h : n < 10
    · rw [if_pos h] at hc
      rcases List.mem_cons.mp hc with hEq | hmem
      · rw [hEq]; exact digitChar_ne_dash n
      · exact hacc c hmem
    · rw [if_neg h] at hc
      refine ih (n / 10) (digitChar (n % 10) :: acc) ?_ c hc
      intro x hx
      rcases List.mem_cons.mp hx with hEq | hmem
      · rw [hEq]; exact digitChar_ne_dash (n % 10)
      · exact hacc x hmem

theorem natToDigits_no_dash (n : Nat) : ∀ c ∈ natToDigits n, c ≠ '-' :=
  natToDigitsCore_no_dash (n + 1) n [] (by intro c hc; cases hc)

theorem splitOnDash_ne_nil (l : List Char) : splitOnDash l ≠ [] := by
  cases l with
  | nil => simp [splitOnDash]
  | cons c cs =>
    rw [splitOnDash]
    cases h : splitOnDash cs with
    | nil => simp
    | cons hd tl => by_cases hc : c = '-' <;> simp [hc]

theorem splitOnDash_no_dash (l : List Char) (h : ∀ c ∈ l, c ≠ '-') : splitOnDash l = [l] := by
  induction l with
  | nil => rfl
  | cons c cs ih =>
    have hc : c ≠ '-' := h c (List.mem_cons_self c cs)
    have ht : ∀ x ∈ cs, x ≠ '-' := fun x hx => h x (List.mem_cons_of_mem c hx)
    rw [splitOnDash, ih ht]
    simp [hc]

theorem splitOnDash_append_dash (a b : List Char) (h : ∀ c ∈ a, c ≠ '-') :
    splitOnDash (a ++ '-' :: b) = a :: splitOnDash b := by
  induction a with
  | nil =>
    rw [List.nil_append, splitOnDash]
    cases hs : splitOnDash b with
    | nil => exact absurd hs (splitOnDash_ne_nil b)
    | cons hd tl => simp
  | cons c cs ih =>
    have hc : c ≠ '-' := h c (List.mem_cons_self c cs)
    have ht : ∀ x ∈ cs, x ≠ '-' := fun x hx => h x (List.mem_cons_of_mem c hx)
    rw [List.cons_append, splitOnDash, ih ht]
    simp [hc]

/-- Claim C4, amended: resolving the two parties from a synthesized
request identifier round-trips exactly when neither user id contains the
dash separator (the Unix-time suffix is all digits); an id containing a
dash changes the number of split parts away from four, so
GetFriendRequestUsers rejects the very identifiers the handler synthesizes
for such users as having an invalid format. -/
theorem C4_request_id_round_trip (db : DB) (fromUser toUser : User) (t : Nat)
    (hfrom : ∀ c ∈ fromUser.id.data, c ≠ '-')
    (hto : ∀ c ∈ toUser.id.data, c ≠ '-')
    (hgf : getUser db fromUser.id = some fromUser)
    (hgt : getUser db toUser.id = some toUser) :
    getFriendRequestUsers db (mkRequestID fromUser.id toUser.id t) = .ok (fromUser, toUser) := by
  have h1 : ("fr-" : String).data = ['f', 'r', '-'] := by decide
  have h2 : ("-" : String).data = ['-'] := by decide
  have hdata : (mkRequestID fromUser.id toUser.id t).data =
      ['f', 'r'] ++ '-' :: (fromUser.id.data ++ '-' :: (toUser.id.data ++ '-' :: natToDigits t)) := by
    rw [mkRequestID]
    rw [data_append, data_append, data_append, data_append, data_append]
    rw [h1, h2, natToStr_data]
    simp [List.append_assoc]
  have hfr : List.asString ['f', 'r'] = "fr" := by decide
  have hsplit : splitDash (mkRequestID fromUser.id toUser.id t) =
      ["fr", fromUser.id, toUser.id, List.asString (natToDigits t)] := by
    rw [splitDash, hdata]
    rw [splitOnDash_append_dash ['f', 'r'] _ (by decide)]
    rw [splitOnDash_append_dash _ _ hfrom]
    rw [splitOnDash_append_dash _ _ hto]
    rw [splitOnDash_no_dash _ (natToDigits_no_dash t)]
    simp only [List.map_cons, List.map_nil]
    rw [hfr, asString_data, asString_data]
  rw [getFriendRequestUsers, hsplit]
  simp only [List.getD_cons_zero, List.getD_cons_succ, List.length_cons, List.length_nil]
  rw [if_pos (by simp)]
  rw [hgf, hgt]

/-- Claim C4 counterexample: user ids containing the separator (here
a-b), as the deployed uuid ids always do: the synthesized identifier
splits into five parts, so GetFriendRequestUsers rejects it instead of
returning the two parties. -/
theorem C4_counterexample :
    getFriendRequestUsers
      ⟨[⟨"a-b", "alice", "pw", "online"⟩, ⟨"c", "bob", "pw", "online"⟩], [], [], [], 0⟩
      (mkRequestID "a-b" "c" 0) = .error "invalid request ID format" := by
  rfl

/-- Witness for C4_request_id_round_trip: dash-free ids u1 and u2. -/
theorem C4_witness :
    (∀ c ∈ ("u1" : String).data, c ≠ '-') ∧
    getFriendRequestUsers
      ⟨[⟨"u1", "alice", "pw", "online"⟩, ⟨"u2", "bob", "pw", "online"⟩], [], [], [], 0⟩
      (mkRequestID "u1" "u2" 33) =
      .ok (⟨"u1", "alice", "pw", "online"⟩, ⟨"u2", "bob", "pw", "online"⟩) :=
  ⟨by decide,
   C4_request_id_round_trip
     ⟨[⟨"u1", "alice", "pw", "online"⟩, ⟨"u2", "bob", "pw", "online"⟩], [], [], [], 0⟩
     ⟨"u1", "alice", "pw", "online"⟩ ⟨"u2", "bob", "pw", "online"⟩ 33
     (by decide) (by decide) (by decide) (by decide)⟩

/-! Helper lemmas about the group fan-out fold. -/

theorem lookupClient_foldl_sendIfPresent_not_mem (members : List String) (cs : Registry)
    (m : Message) (uid : String) (h : uid ∉ members) :
    lookupClient (members.foldl (fun acc u => sendIfPresent acc u m) cs) uid =
      lookupClient cs uid := by
  induction members generalizing cs with
  | nil => rfl
  | cons k rest ih =>
    rw [List.foldl_cons]
    have hk : uid ≠ k := fun hEq => h (hEq ▸ List.mem_cons_self k rest)
    rw [ih (sendIfPresent cs k m) (fun hm => h (List.mem_cons_of_mem k hm))]
    exact lookupClient_sendIfPresent_ne cs k uid m hk

theorem lookupClient_foldl_sendIfPresent_mem (members : List String) (cs : Registry)
    (m : Message) (uid : String) (hnd : members.Nodup) (hmem : uid ∈ members) :
    lookupClient (members.foldl (fun acc u => sendIfPresent acc u m) cs) uid =
      (lookupClient cs uid).map (fun c => (trySend c m).1) := by
  induction members generalizing cs with
  | nil => cases hmem
  | cons k rest ih =>
    rw [List.foldl_cons]
    rw [List.nodup_cons] at hnd
    rcases List.mem_cons.mp hmem with hEq | hrest
    · subst hEq
      rw [lookupClient_foldl_sendIfPresent_not_mem rest (sendIfPresent cs uid m) m uid hnd.1]
      exact lookupClient_sendIfPresent_self cs uid m
    · have hk : uid ≠ k := fun hEq => (hnd.1 (hEq ▸ hrest)).elim
      rw [ih (sendIfPresent cs k m) hnd.2 hrest]
      rw [lookupClient_sendIfPresent_ne cs k uid m hk]

/-- Claim C5, confirmed: a group message from a non-member is rejected
with the not-a-member error before anything happens — the store and every
mailbox are unchanged — while a member's message is persisted and then
fanned out: registry entries outside the member list are untouched, and
(under distinct member rows) each member entry receives the
select/default enqueue of the formatted group message. -/
theorem C5_group_isolation (db : DB) (cs : Registry) (sender : Client)
    (content groupID : String) (now : Nat) :
    (isGroupMember db sender.id groupID = false →
      handleGroupMessage db cs sender content groupID now =
        ((db, cs), some "user is not a member of this group")) ∧
    (isGroupMember db sender.id groupID = true →
      (handleGroupMessage db cs sender content groupID now).2 = none ∧
      (handleGroupMessage db cs sender content groupID now).1.1.messages =
        db.messages ++
          [⟨db.nextMessageID, content, sender.id, sender.username, none, some groupID, now⟩] ∧
      (∀ uid, uid ∉ getGroupMembers db groupID →
        lookupClient (handleGroupMessage db cs sender content groupID now).1.2 uid =
          lookupClient cs uid) ∧
      ((getGroupMembers db groupID).Nodup →
        ∀ uid ∈ getGroupMembers db groupID,
          lookupClient (handleGroupMessage db cs sender content groupID now).1.2 uid =
            (lookupClient cs uid).map (fun c =>
              (trySend c (newMessage .groupMessage
                (createMessagePayload
                  ⟨db.nextMessageID, content, sender.id, sender.username, none, some groupID, now⟩)
                now)).1))) := by
  constructor
  · intro h
    rw [handleGroupMessage, if_pos]
    rw [h]
    exact Bool.false_ne_true
  · intro h
    have hne : ¬ ¬ (isGroupMember db sender.id groupID = true) := fun hc => hc h
    rw [handleGroupMessage, if_neg hne]
    have hgm : getGroupMembers (saveMessage db
        ⟨0, content, sender.id, sender.username, none, some groupID, now⟩).1 groupID =
        getGroupMembers db groupID := rfl
    refine ⟨rfl, rfl, ?_, ?_⟩
    · intro uid huid
      exact lookupClient_foldl_sendIfPresent_not_mem _ cs _ uid (by rw [hgm]; exact huid)
    · intro hnd uid huid
      exact lookupClient_foldl_sendIfPresent_mem _ cs _ uid (by rw [hgm]; exact hnd)
        (by rw [hgm]; exact huid)

/-- Witness for C5_group_isolation: a two-member group g with one online
member and one outsider; the non-member branch is exercised with an
outsider sender, and in the member branch the online member's mailbox
receives the message. -/
theorem C5_witness :
    isGroupMember ⟨[], [], [("g", "s"), ("g", "m")], [], 0⟩ "out" "g" = false ∧
    handleGroupMessage ⟨[], [], [("g", "s"), ("g", "m")], [], 0⟩
      [("m", ⟨"m", "mm", [], false, false⟩)] ⟨"out", "oo", [], false, false⟩ "hi" "g" 4 =
      ((⟨[], [], [("g", "s"), ("g", "m")], [], 0⟩, [("m", ⟨"m", "mm", [], false, false⟩)]),
        some "user is not a member of this group") :=
  ⟨by decide,
   (C5_group_isolation ⟨[], [], [("g", "s"), ("g", "m")], [], 0⟩
      [("m", ⟨"m", "mm", [], false, false⟩)] ⟨"out", "oo", [], false, false⟩
      "hi" "g" 4).1 (by decide)⟩

/-! Helper lemmas for the friend-response handler. -/

theorem acceptFriendRequest_ok (friends : List FriendRow) (a b : String)
    (h : friends.any (fun r =>
      ((r.u1 = a ∧ r.u2 = b) ∨ (r.u1 = b ∧ r.u2 = a)) ∧ r.status = FriendStatus.pending) = true) :
    acceptFriendRequest friends a b =
      .ok (friends.map (fun r =>
        if ((r.u1 = a ∧ r.u2 = b) ∨ (r.u1 = b ∧ r.u2 = a)) ∧ r.status = FriendStatus.pending then
          { r with status := FriendStatus.accepted } else r)) := by
  rw [acceptFriendRequest, if_pos]
  exact h

theorem accepted_row_after_accept (friends : List FriendRow) (a b : String)
    (h : friends.any (fun r =>
      ((r.u1 = a ∧ r.u2 = b) ∨ (r.u1 = b ∧ r.u2 = a)) ∧ r.status = FriendStatus.pending) = true) :
    ∃ r ∈ friends.map (fun r =>
        if ((r.u1 = a ∧ r.u2 = b) ∨ (r.u1 = b ∧ r.u2 = a)) ∧ r.status = FriendStatus.pending then
          { r with status := FriendStatus.accepted } else r),
      r.status = FriendStatus.accepted ∧ ((r.u1 = a ∧ r.u2 = b) ∨ (r.u1 = b ∧ r.u2 = a)) := by
  rcases List.any_eq_true.mp h with ⟨r, hr, hp⟩
  have hp2 : ((r.u1 = a ∧ r.u2 = b) ∨ (r.u1 = b ∧ r.u2 = a)) ∧ r.status = FriendStatus.pending := by
    simpa using hp
  refine ⟨{ r with status := FriendStatus.accepted }, ?_, rfl, by simpa using hp2.1⟩
  have himg := List.mem_map_of_mem (fun r : FriendRow =>
    if ((r.u1 = a ∧ r.u2 = b) ∨ (r.u1 = b ∧ r.u2 = a)) ∧ r.status = FriendStatus.pending then
      { r with status := FriendStatus.accepted } else r) hr
  simpa [if_pos hp2] using himg

theorem mem_getFriends_of_row (db : DB) (uid : String) (u : User) (hu : u ∈ db.users)
    (hrow : ∃ r ∈ db.friends, r.status = FriendStatus.accepted ∧
      ((r.u1 = uid ∧ r.u2 = u.id) ∨ (r.u2 = uid ∧ r.u1 = u.id))) :
    u ∈ getFriends db uid := by
  rcases hrow with ⟨r, hr, hst, hor⟩
  rw [getFriends]
  refine List.mem_filter.mpr ⟨hu, ?_⟩
  refine List.any_eq_true.mpr ⟨r, hr, ?_⟩
  simp only [decide_eq_true_eq]
  exact ⟨hst, hor⟩

theorem handleFriendResponse_accept_eq (db : DB) (cs : Registry) (fromUser toUser : User)
    (requestID : String) (now : Nat) (friends2 : List FriendRow)
    (hreq : getFriendRequestUsers db requestID = .ok (fromUser, toUser))
    (hacc : acceptFriendRequest db.friends fromUser.id toUser.id = .ok friends2) :
    handleFriendResponse db cs toUser.id requestID true now =
      (({ db with friends := friends2 },
        sendUpdatedFriendList { db with friends := friends2 }
          (sendUpdatedFriendList { db with friends := friends2 }
            (sendIfPresent
              (sendIfPresent cs fromUser.id
                (newMessage .friendResponse (.friendResponseP requestID toUser.username true) now))
              toUser.id
              (newMessage .friendResponse (.friendResponseP requestID fromUser.username true) now))
            fromUser.id now)
          toUser.id now), none) := by
  rw [handleFriendResponse, hreq]
  simp [hacc]

theorem sendUpdatedFriendList_eq (db : DB) (cs : Registry) (uid : String) (now : Nat) :
    sendUpdatedFriendList db cs uid now =
      sendIfPresent cs uid
        (newMessage .friendList (.friendListP ((getFriends db uid).map mkUserInfo)) now) := rfl

/-- Claim C8, amended: after an accepted friend response by the intended
recipient, both parties that are online AND whose mailboxes have room for
the response notification and the refreshed list receive a friend_list
envelope whose friend set contains the other party (a full mailbox drops
the send silently). -/
theorem C8_friend_acceptance_symmetry (db : DB) (cs : Registry)
    (fromUser toUser : User) (fromClient toClient : Client) (requestID : String) (now : Nat)
    (hreq : getFriendRequestUsers db requestID = .ok (fromUser, toUser))
    (hfu : fromUser ∈ db.users) (htu : toUser ∈ db.users)
    (hne : fromUser.id ≠ toUser.id)
    (hpending : db.friends.any (fun r =>
      ((r.u1 = fromUser.id ∧ r.u2 = toUser.id) ∨ (r.u1 = toUser.id ∧ r.u2 = fromUser.id)) ∧
      r.status = FriendStatus.pending) = true)
    (hfc : lookupClient cs fromUser.id = some fromClient)
    (htc : lookupClient cs toUser.id = some toClient)
    (hfroom : fromClient.mailbox.length + 2 ≤ sendChannelCapacity)
    (htroom : toClient.mailbox.length + 2 ≤ sendChannelCapacity) :
    (handleFriendResponse db cs toUser.id requestID true now).2 = none ∧
    (∃ fc : Client, ∃ infos : List UserInfo,
      lookupClient (handleFriendResponse db cs toUser.id requestID true now).1.2 fromUser.id =
        some fc ∧
      newMessage .friendList (.friendListP infos) now ∈ fc.mailbox ∧
      mkUserInfo toUser ∈ infos) ∧
    (∃ tc : Client, ∃ infos : List UserInfo,
      lookupClient (handleFriendResponse db cs toUser.id requestID true now).1.2 toUser.id =
        some tc ∧
      newMessage .friendList (.friendListP infos) now ∈ tc.mailbox ∧
      mkUserInfo fromUser ∈ infos) := by
  have haccept := acceptFriendRequest_ok db.friends fromUser.id toUser.id hpending
  have hrun := handleFriendResponse_accept_eq db cs fromUser toUser requestID now
    (db.friends.map (fun r =>
      if ((r.u1 = fromUser.id ∧ r.u2 = toUser.id) ∨ (r.u1 = toUser.id ∧ r.u2 = fromUser.id)) ∧
          r.status = FriendStatus.pending then { r with status := FriendStatus.accepted } else r))
    hreq haccept
  rw [hrun, sendUpdatedFriendList_eq, sendUpdatedFriendList_eq]
  -- shorthand for the intermediate states
  have hnesymm : toUser.id ≠ fromUser.id := fun hEq => hne hEq.symm
  -- db2 is db with the pending row flipped to accepted
  have hdb2users : (({ db with friends := db.friends.map (fun r =>
      if ((r.u1 = fromUser.id ∧ r.u2 = toUser.id) ∨ (r.u1 = toUser.id ∧ r.u2 = fromUser.id)) ∧
          r.status = FriendStatus.pending then { r with status := FriendStatus.accepted } else r) } : DB)).users
      = db.users := rfl
  -- the accepted row exists in db2
  have hrow := accepted_row_after_accept db.friends fromUser.id toUser.id hpending
  -- notation
  set friends2 := db.friends.map (fun r =>
      if ((r.u1 = fromUser.id ∧ r.u2 = toUser.id) ∨ (r.u1 = toUser.id ∧ r.u2 = fromUser.id)) ∧
          r.status = FriendStatus.pending then { r with status := FriendStatus.accepted } else r)
    with hF2
  set db2 := ({ db with friends := friends2 } : DB) with hDB2
  have hdb2u : db2.users = db.users := by rw [hDB2]
  have hdb2f : db2.friends = friends2 := by rw [hDB2]
  set notif := newMessage .friendResponse (.friendResponseP requestID toUser.username true) now with hN
  set conf := newMessage .friendResponse (.friendResponseP requestID fromUser.username true) now with hC
  set msgF := newMessage .friendList (.friendListP ((getFriends db2 fromUser.id).map mkUserInfo)) now with hMF
  set msgT := newMessage .friendList (.friendListP ((getFriends db2 toUser.id).map mkUserInfo)) now with hMT
  -- step through the four sends for the requester entry
  have hflt : fromClient.mailbox.length < sendChannelCapacity := by omega
  have hl1 : lookupClient (sendIfPresent cs fromUser.id notif) fromUser.id =
      some { fromClient with mailbox := fromClient.mailbox ++ [notif] } := by
    rw [lookupClient_sendIfPresent_self, hfc]
    simp [trySend, hflt]
  have hl2 : lookupClient (sendIfPresent (sendIfPresent cs fromUser.id notif) toUser.id conf)
      fromUser.id = some { fromClient with mailbox := fromClient.mailbox ++ [notif] } := by
    rw [lookupClient_sendIfPresent_ne _ _ _ _ hne]
    exact hl1
  have hflt2 : fromClient.mailbox.length + 1 < sendChannelCapacity := by omega
  have hl3 : lookupClient (sendIfPresent
      (sendIfPresent (sendIfPresent cs fromUser.id notif) toUser.id conf) fromUser.id msgF)
      fromUser.id =
      some { fromClient with mailbox := (fromClient.mailbox ++ [notif]) ++ [msgF] } := by
    rw [lookupClient_sendIfPresent_self, hl2]
    simp [trySend, hflt2]
  have hl4 : lookupClient (sendIfPresent (sendIfPresent
      (sendIfPresent (sendIfPresent cs fromUser.id notif) toUser.id conf) fromUser.id msgF)
      toUser.id msgT) fromUser.id =
      some { fromClient with mailbox := (fromClient.mailbox ++ [notif]) ++ [msgF] } := by
    rw [lookupClient_sendIfPresent_ne _ _ _ _ hne]
    exact hl3
  -- step through the four sends for the responder entry
  have htlt : toClient.mailbox.length < sendChannelCapacity := by omega
  have hr1 : lookupClient (sendIfPresent cs fromUser.id notif) toUser.id = some toClient := by
    rw [lookupClient_sendIfPresent_ne _ _ _ _ hnesymm]
    exact htc
  have hr2 : lookupClient (sendIfPresent (sendIfPresent cs fromUser.id notif) toUser.id conf)
      toUser.id = some { toClient with mailbox := toClient.mailbox ++ [conf] } := by
    rw [lookupClient_sendIfPresent_self, hr1]
    simp [trySend, htlt]
  have hr3 : lookupClient (sendIfPresent
      (sendIfPresent (sendIfPresent cs fromUser.id notif) toUser.id conf) fromUser.id msgF)
      toUser.id = some { toClient with mailbox := toClient.mailbox ++ [conf] } := by
    rw [lookupClient_sendIfPresent_ne _ _ _ _ hnesymm]
    exact hr2
  have htlt2 : toClient.mailbox.length + 1 < sendChannelCapacity := by omega
  have hr4 : lookupClient (sendIfPresent (sendIfPresent
      (sendIfPresent (sendIfPresent cs fromUser.id notif) toUser.id conf) fromUser.id msgF)
      toUser.id msgT) toUser.id =
      some { toClient with mailbox := (toClient.mailbox ++ [conf]) ++ [msgT] } := by
    rw [lookupClient_sendIfPresent_self, hr3]
    simp [trySend, htlt2]
  -- the refreshed lists contain the other party
  have hTinF : toUser ∈ getFriends db2 fromUser.id := by
    refine mem_getFriends_of_row db2 fromUser.id toUser (hdb2u ▸ htu) ?_
    rcases hrow with ⟨r, hr, hst, hor⟩
    refine ⟨r, hdb2f ▸ hr, hst, ?_⟩
    rcases hor with ⟨h1, h2⟩ | ⟨h1, h2⟩
    · exact Or.inl ⟨h1, h2⟩
    · exact Or.inr ⟨h2, h1⟩
  have hFinT : fromUser ∈ getFriends db2 toUser.id := by
    refine mem_getFriends_of_row db2 toUser.id fromUser (hdb2u ▸ hfu) ?_
    rcases hrow with ⟨r, hr, hst, hor⟩
    refine ⟨r, hdb2f ▸ hr, hst, ?_⟩
    rcases hor with ⟨h1, h2⟩ | ⟨h1, h2⟩
    · exact Or.inr ⟨h2, h1⟩
    · exact Or.inl ⟨h1, h2⟩
  refine ⟨rfl, ?_, ?_⟩
  · refine ⟨{ fromClient with mailbox := (fromClient.mailbox ++ [notif]) ++ [msgF] },
      (getFriends db2 fromUser.id).map mkUserInfo, hl4, ?_, ?_⟩
    · rw [hMF]
      simp
    · exact List.mem_map_of_mem mkUserInfo hTinF
  · refine ⟨{ toClient with mailbox := (toClient.mailbox ++ [conf]) ++ [msgT] },
      (getFriends db2 toUser.id).map mkUserInfo, hr4, ?_, ?_⟩
    · rw [hMT]
      simp
    · exact List.mem_map_of_mem mkUserInfo hFinT

set_option maxRecDepth 1000000 in
/-- Claim C8 counterexample: the responder u2 is online but its mailbox is
full (256 queued pings).  The accepted friend response completes without
error, yet u2's Session is returned with its mailbox unchanged — all pings,
no friend_list envelope — so an online party did not receive the refreshed
friend list. -/
theorem C8_counterexample :
    (handleFriendResponse
      ⟨[⟨"u1", "alice", "pw", "online"⟩, ⟨"u2", "bob", "pw", "online"⟩],
       [⟨"u1", "u2", .pending⟩], [], [], 0⟩
      [("u1", ⟨"u1", "alice", [], false, false⟩),
       ("u2", ⟨"u2", "bob", List.replicate 256 (newMessage .ping .nilP 0), false, false⟩)]
      "u2" "fr-u1-u2-0" true 0).2 = none ∧
    lookupClient
      (handleFriendResponse
        ⟨[⟨"u1", "alice", "pw", "online"⟩, ⟨"u2", "bob", "pw", "online"⟩],
         [⟨"u1", "u2", .pending⟩], [], [], 0⟩
        [("u1", ⟨"u1", "alice", [], false, false⟩),
         ("u2", ⟨"u2", "bob", List.replicate 256 (newMessage .ping .nilP 0), false, false⟩)]
        "u2" "fr-u1-u2-0" true 0).1.2 "u2" =
      some ⟨"u2", "bob", List.replicate 256 (newMessage .ping .nilP 0), false, false⟩ ∧
    (List.replicate 256 (newMessage .ping .nilP 0)).all
      (fun m => m.type ≠ MessageType.friendList) = true := by
  refine ⟨?_, ?_, ?_⟩ <;> decide

/-- Witness for C8_friend_acceptance_symmetry: both parties online with
empty mailboxes and a pending (u1, u2) row. -/
theorem C8_witness :
    getFriendRequestUsers
      ⟨[⟨"u1", "alice", "pw", "online"⟩, ⟨"u2", "bob", "pw", "online"⟩],
       [⟨"u1", "u2", .pending⟩], [], [], 0⟩ "fr-u1-u2-0" =
      .ok (⟨"u1", "alice", "pw", "online"⟩, ⟨"u2", "bob", "pw", "online"⟩) ∧
    (handleFriendResponse
      ⟨[⟨"u1", "alice", "pw", "online"⟩, ⟨"u2", "bob", "pw", "online"⟩],
       [⟨"u1", "u2", .pending⟩], [], [], 0⟩
      [("u1", ⟨"u1", "alice", [], false, false⟩), ("u2", ⟨"u2", "bob", [], false, false⟩)]
      "u2" "fr-u1-u2-0" true 0).2 = none :=
  ⟨rfl,
   (C8_friend_acceptance_symmetry
      ⟨[⟨"u1", "alice", "pw", "online"⟩, ⟨"u2", "bob", "pw", "online"⟩],
       [⟨"u1", "u2", .pending⟩], [], [], 0⟩
      [("u1", ⟨"u1", "alice", [], false, false⟩), ("u2", ⟨"u2", "bob", [], false, false⟩)]
      ⟨"u1", "alice", "pw", "online"⟩ ⟨"u2", "bob", "pw", "online"⟩
      ⟨"u1", "alice", [], false, false⟩ ⟨"u2", "bob", [], false, false⟩
      "fr-u1-u2-0" 0 rfl (by decide) (by decide) (by decide) (by decide)
      (by decide) (by decide) (by decide) (by decide)).1⟩

end Textual
